import Mathlib

/-!
# Verification of the IPSAE interface-scoring core

Shallow embedding of `ipsae/core/calculator.py`, `ipsae/core/parser.py` and
`ipsae/models/data_models.py`.  Numeric values are modelled over an arbitrary
linear ordered field (instantiated at `ℚ` for concrete evaluation and at `ℝ`
for the Euclidean-distance statements); the two library functions the source
calls out to, `numpy.exp` and the square root inside `scipy`'s `cdist`, are
passed in as explicit function parameters `pexp` and `psqrt`.
-/

namespace Ipsae

/-- `StructureData` from `data_models.py`: chain labels, residue descriptors
`(chain, residue_number, residue_name)` and CA coordinates. -/
structure StructureData (α : Type) where
  chains : List String
  residues : List (String × Int × String)
  coordinates : List (α × α × α)
deriving DecidableEq

/-- `ChainChainScore` from `data_models.py`. -/
structure ChainChainScore (α : Type) where
  chain1 : String
  chain2 : String
  ipsae_score : α
  pdockq_score : α
  lis_score : α
  avg_pae : α
  avg_distance : α
  num_interactions : Nat
  valid_interactions : List (Nat × Nat)
  pae_values : List α
  distances : List α
deriving DecidableEq

/-- `ResidueScore` from `data_models.py`. -/
structure ResidueScore (α : Type) where
  chain : String
  residue_number : Int
  residue_name : String
  ipsae_score : α
  avg_pae : α
  avg_distance : α
  num_interactions : Nat
  valid_interactions : List (Nat × Nat)
  pae_values : List α
  distances : List α
deriving DecidableEq

variable {α : Type} [LinearOrderedField α]

/-- Squared Euclidean norm of the difference of two 3D points. -/
def sqNorm (a b : α × α × α) : α :=
  (a.1 - b.1) ^ 2 + (a.2.1 - b.2.1) ^ 2 + (a.2.2 - b.2.2) ^ 2

/-- `scipy.spatial.distance.cdist(coordinates, coordinates)` as an entry
function: entry `(i, j)` is `psqrt` of the squared Euclidean distance between
coordinates `i` and `j` (in-bounds indices are the only ones the calculator
uses; out-of-range indices read a dummy origin point). -/
def cdist (psqrt : α → α) (coords : List (α × α × α)) : Nat → Nat → α :=
  fun i j => psqrt (sqNorm (coords.getD i (0, 0, 0)) (coords.getD j (0, 0, 0)))

/-- `numpy.mean` of a list: sum divided by length. -/
def mean (l : List α) : α := l.sum / (l.length : α)

/-- `sorted(set(self.structure_data.chains))` from `calculator.py` line 71:
the distinct chain labels in ascending (lexicographic) order. -/
def uniqueSortedChains (chains : List String) : List String :=
  List.insertionSort (· ≤ ·) chains.dedup

/-- The double loop of `calculator.py` lines 77-78: every element paired with
every strictly later element of the (sorted, distinct) chain list. -/
def chainPairs : List String → List (String × String)
  | [] => []
  | c :: rest => (rest.map fun c2 => (c, c2)) ++ chainPairs rest

/-- `[k for k, (c, _, _) in enumerate(self.structure_data.residues) if c == chain]`
(`calculator.py` lines 80-81). -/
def chainIndices (residues : List (String × Int × String)) (chain : String) : List Nat :=
  ((residues.enum).filter fun p => p.2.1 == chain).map Prod.fst

/-- The inner selection loop of `calculator.py` lines 88-96: all index pairs
from the cross product of the two chains' residue indices whose PAE and
distance both satisfy the cutoffs. -/
def validInteractions (pae dist : Nat → Nat → α) (pae_cutoff distance_cutoff : α)
    (idx1 idx2 : List Nat) : List (Nat × Nat) :=
  (idx1.product idx2).filter fun p =>
    decide (pae p.1 p.2 ≤ pae_cutoff) && decide (dist p.1 p.2 ≤ distance_cutoff)

/-- The body of the chain-pair loop of `calculator.py` lines 79-124: `none`
when no interaction qualifies, otherwise the assembled `ChainChainScore`. -/
def chainPairScore (pexp : α → α) (residues : List (String × Int × String))
    (pae dist : Nat → Nat → α) (pae_cutoff distance_cutoff : α)
    (c : String × String) : Option (ChainChainScore α) :=
  let chain1_indices := chainIndices residues c.1
  let chain2_indices := chainIndices residues c.2
  let valid := validInteractions pae dist pae_cutoff distance_cutoff chain1_indices chain2_indices
  let pae_values := valid.map fun p => pae p.1 p.2
  let dist_values := valid.map fun p => dist p.1 p.2
  if valid = [] then none
  else
    let avg_pae := mean pae_values
    let avg_distance := mean dist_values
    some {
      chain1 := c.1
      chain2 := c.2
      ipsae_score := 1 - avg_pae / pae_cutoff
      pdockq_score := 1 / (1 + pexp (-(1 / 2) * (avg_pae - 20)))
      lis_score := (valid.length : α) / ((chain1_indices.length * chain2_indices.length : ℕ) : α)
      avg_pae := avg_pae
      avg_distance := avg_distance
      num_interactions := valid.length
      valid_interactions := valid
      pae_values := pae_values
      distances := dist_values }

/-- `IPSAECalculator.calculate_chain_chain_scores` (`calculator.py` lines
66-126), with the PAE matrix and the two cutoffs as explicit arguments. -/
def calculate_chain_chain_scores (psqrt pexp : α → α) (sd : StructureData α)
    (pae : Nat → Nat → α) (pae_cutoff distance_cutoff : α) : List (ChainChainScore α) :=
  let distances := cdist psqrt sd.coordinates
  (chainPairs (uniqueSortedChains sd.chains)).filterMap
    (chainPairScore pexp sd.residues pae distances pae_cutoff distance_cutoff)

/-- The partner-selection loop of `calculator.py` lines 142-150: all pairs
`(i, j)` with `j` ranging over `range(len(coordinates))`, `j ≠ i`, and both
cutoffs satisfied. -/
def residuePartners (pae dist : Nat → Nat → α) (pae_cutoff distance_cutoff : α)
    (nCoords : Nat) (i : Nat) : List (Nat × Nat) :=
  ((List.range nCoords).filter fun j =>
    !(i == j) && decide (pae i j ≤ pae_cutoff) && decide (dist i j ≤ distance_cutoff)).map
    fun j => (i, j)

/-- The body of the residue loop of `calculator.py` lines 136-171. -/
def residueScoreAt (pae dist : Nat → Nat → α) (pae_cutoff distance_cutoff : α)
    (nCoords : Nat) (p : Nat × String × Int × String) : Option (ResidueScore α) :=
  let valid := residuePartners pae dist pae_cutoff distance_cutoff nCoords p.1
  let pae_values := valid.map fun q => pae q.1 q.2
  let dist_values := valid.map fun q => dist q.1 q.2
  if valid = [] then none
  else
    let avg_pae := mean pae_values
    let avg_distance := mean dist_values
    some {
      chain := p.2.1
      residue_number := p.2.2.1
      residue_name := p.2.2.2
      ipsae_score := 1 - avg_pae / pae_cutoff
      avg_pae := avg_pae
      avg_distance := avg_distance
      num_interactions := valid.length
      valid_interactions := valid
      pae_values := pae_values
      distances := dist_values }

/-- `IPSAECalculator.calculate_residue_scores` (`calculator.py` lines
128-173). -/
def calculate_residue_scores (psqrt : α → α) (sd : StructureData α)
    (pae : Nat → Nat → α) (pae_cutoff distance_cutoff : α) : List (ResidueScore α) :=
  let distances := cdist psqrt sd.coordinates
  (sd.residues.enum).filterMap
    (residueScoreAt pae distances pae_cutoff distance_cutoff sd.coordinates.length)

/-! ## Bounds-checked semantics

The Python matrices are `numpy` arrays: reading `m[i, j]` with an index out of
range raises `IndexError`, which aborts the run.  The following variant models
the same loops over matrices given as rectangular nested lists, with every
element access checked; an out-of-range access yields `Except.error`. -/

/-- Checked `numpy` 2D element read `m[i, j]`. -/
def mget (m : List (List α)) (i j : Nat) : Option α :=
  m[i]?.bind fun row => row[j]?

/-- The distance matrix `cdist(coordinates, coordinates)` as a nested list:
an `n × n` matrix where `n = len(coordinates)`. -/
def cdistM (psqrt : α → α) (coords : List (α × α × α)) : List (List α) :=
  coords.map fun a => coords.map fun b => psqrt (sqNorm a b)

/-- The selection loop over a list of candidate index pairs, with checked
matrix reads (`calculator.py` lines 88-96 / 142-150): reads PAE then distance
for each pair, errors on the first out-of-range access, and returns the
retained pairs with their PAE and distance values. -/
def collectValid (pae dist : List (List α)) (pae_cutoff distance_cutoff : α) :
    List (Nat × Nat) → Except String (List (Nat × Nat) × List α × List α)
  | [] => .ok ([], [], [])
  | p :: rest =>
    match mget pae p.1 p.2 with
    | none => .error "IndexError"
    | some paeV =>
      match mget dist p.1 p.2 with
      | none => .error "IndexError"
      | some distV =>
        match collectValid pae dist pae_cutoff distance_cutoff rest with
        | .error e => .error e
        | .ok (vs, ps, ds) =>
          if paeV ≤ pae_cutoff ∧ distV ≤ distance_cutoff then
            .ok (p :: vs, paeV :: ps, distV :: ds)
          else .ok (vs, ps, ds)

/-- The `filterMap`-shaped accumulation loop with error propagation: the
Python `for` loop appends emitted scores and lets any `IndexError` escape. -/
def exceptFilterMap {β γ : Type} (f : β → Except String (Option γ)) :
    List β → Except String (List γ)
  | [] => .ok []
  | b :: rest =>
    match f b with
    | .error e => .error e
    | .ok none => exceptFilterMap f rest
    | .ok (some g) =>
      match exceptFilterMap f rest with
      | .error e => .error e
      | .ok l => .ok (g :: l)

/-- Checked body of the chain-pair loop (`calculator.py` lines 79-124). -/
def chainPairScoreChecked (pexp : α → α) (residues : List (String × Int × String))
    (pae dist : List (List α)) (pae_cutoff distance_cutoff : α)
    (c : String × String) : Except String (Option (ChainChainScore α)) :=
  let chain1_indices := chainIndices residues c.1
  let chain2_indices := chainIndices residues c.2
  match collectValid pae dist pae_cutoff distance_cutoff
      (chain1_indices.product chain2_indices) with
  | .error e => .error e
  | .ok (valid, pae_values, dist_values) =>
    if valid = [] then .ok none
    else
      let avg_pae := mean pae_values
      let avg_distance := mean dist_values
      .ok (some {
        chain1 := c.1
        chain2 := c.2
        ipsae_score := 1 - avg_pae / pae_cutoff
        pdockq_score := 1 / (1 + pexp (-(1 / 2) * (avg_pae - 20)))
        lis_score := (valid.length : α) / ((chain1_indices.length * chain2_indices.length : ℕ) : α)
        avg_pae := avg_pae
        avg_distance := avg_distance
        num_interactions := valid.length
        valid_interactions := valid
        pae_values := pae_values
        distances := dist_values })

/-- Checked `calculate_chain_chain_scores`. -/
def calculate_chain_chain_scores_checked (psqrt pexp : α → α) (sd : StructureData α)
    (pae : List (List α)) (pae_cutoff distance_cutoff : α) :
    Except String (List (ChainChainScore α)) :=
  let distances := cdistM psqrt sd.coordinates
  exceptFilterMap
    (chainPairScoreChecked pexp sd.residues pae distances pae_cutoff distance_cutoff)
    (chainPairs (uniqueSortedChains sd.chains))

/-- Checked body of the residue loop (`calculator.py` lines 136-171); the
matrices are read only for `j ≠ i`, as in the source. -/
def residueScoreCheckedAt (pae dist : List (List α)) (pae_cutoff distance_cutoff : α)
    (nCoords : Nat) (p : Nat × String × Int × String) : Except String (Option (ResidueScore α)) :=
  match collectValid pae dist pae_cutoff distance_cutoff
      (((List.range nCoords).filter fun j => !(p.1 == j)).map fun j => (p.1, j)) with
  | .error e => .error e
  | .ok (valid, pae_values, dist_values) =>
    if valid = [] then .ok none
    else
      let avg_pae := mean pae_values
      let avg_distance := mean dist_values
      .ok (some {
        chain := p.2.1
        residue_number := p.2.2.1
        residue_name := p.2.2.2
        ipsae_score := 1 - avg_pae / pae_cutoff
        avg_pae := avg_pae
        avg_distance := avg_distance
        num_interactions := valid.length
        valid_interactions := valid
        pae_values := pae_values
        distances := dist_values })

/-- Checked `calculate_residue_scores`. -/
def calculate_residue_scores_checked (psqrt : α → α) (sd : StructureData α)
    (pae : List (List α)) (pae_cutoff distance_cutoff : α) :
    Except String (List (ResidueScore α)) :=
  let distances := cdistM psqrt sd.coordinates
  exceptFilterMap
    (residueScoreCheckedAt pae distances pae_cutoff distance_cutoff sd.coordinates.length)
    (sd.residues.enum)

/-- `IPSAECalculator.calculate` (`calculator.py` lines 175-186) over the
checked semantics: chain-chain scores, then residue scores; any index error
aborts the run with no partial result. -/
def calculate_checked (psqrt pexp : α → α) (sd : StructureData α)
    (pae : List (List α)) (pae_cutoff distance_cutoff : α) :
    Except String (List (ChainChainScore α) × List (ResidueScore α)) :=
  match calculate_chain_chain_scores_checked psqrt pexp sd pae pae_cutoff distance_cutoff with
  | .error e => .error e
  | .ok cc =>
    match calculate_residue_scores_checked psqrt sd pae pae_cutoff distance_cutoff with
    | .error e => .error e
    | .ok rs => .ok (cc, rs)

/-! ## Structure parsers

`parser.py` iterates a parsed `Bio.PDB` structure (models containing chains
containing residues containing atoms); `parse_cif` and `parse_pdb` run
different external file parsers but then execute the identical extraction
loop, modelled here once as `parse_structure`. -/

/-- An atom of the parsed structure: its id and its coordinate. -/
structure BioAtom (α : Type) where
  id : String
  coord : α × α × α
deriving DecidableEq

/-- A residue of the parsed structure: `residue.id[1]` (sequence number),
`residue.resname`, and its atoms. -/
structure BioResidue (α : Type) where
  seqId : Int
  resname : String
  atoms : List (BioAtom α)
deriving DecidableEq

/-- A chain of the parsed structure. -/
structure BioChain (α : Type) where
  id : String
  residues : List (BioResidue α)
deriving DecidableEq

/-- A model of the parsed structure. -/
structure BioModel (α : Type) where
  chains : List (BioChain α)
deriving DecidableEq

/-- A parsed `Bio.PDB` structure: a list of models. -/
structure BioStructure (α : Type) where
  models : List (BioModel α)
deriving DecidableEq

/-- The extraction loop shared by `StructureParser.parse_cif` and
`StructureParser.parse_pdb` (`parser.py` lines 25-42 and 50-67): one pass over
models, chains, residues and atoms, appending `chain.id` once per chain,
one `(chain.id, residue.id[1], residue.resname)` tuple per residue, and one
coordinate per atom whose id is `CA`.  The three accumulating lists are
independent, so the single pass is written as three comprehensions. -/
def parse_structure (s : BioStructure α) : StructureData α :=
  { chains := s.models.flatMap fun m => m.chains.map fun c => c.id
    residues := s.models.flatMap fun m => m.chains.flatMap fun c =>
      c.residues.map fun r => (c.id, r.seqId, r.resname)
    coordinates := s.models.flatMap fun m => m.chains.flatMap fun c =>
      c.residues.flatMap fun r =>
        (r.atoms.filter fun a => a.id == "CA").map fun a => a.coord }

/-- `StructureParser.parse_cif`, after the external mmCIF file parser has
produced the structure tree. -/
def parse_cif (s : BioStructure α) : StructureData α := parse_structure s

/-- `StructureParser.parse_pdb`, after the external PDB file parser has
produced the structure tree. -/
def parse_pdb (s : BioStructure α) : StructureData α := parse_structure s

/-! ## Serialization (`IPSAEResults.save`, `data_models.py` lines 51-106)

Runtime Python values are modelled by `PyVal`; a `numpy` array is a distinct
constructor carrying its (nested) contents, and `ndarray.tolist()` flattens it
to plain nested lists.  `convert_numpy` is the recursive converter from the
source; `save_data` builds the exact dictionary the source passes to
`json.dump`.  Scalar numerics are modelled over `ℚ`. -/

/-- A `numpy` array's contents: a scalar or a nested sequence of arrays. -/
inductive NDArr where
  | scalar : ℚ → NDArr
  | node : List NDArr → NDArr

/-- A Python runtime value as far as `save` is concerned. -/
inductive PyVal where
  | str : String → PyVal
  | int : Int → PyVal
  | float : ℚ → PyVal
  | none : PyVal
  | list : List PyVal → PyVal
  | dict : List (String × PyVal) → PyVal
  | ndarray : NDArr → PyVal

mutual

/-- `numpy.ndarray.tolist()`: plain nested Python lists of scalars. -/
def NDArr.tolist : NDArr → PyVal
  | .scalar q => .float q
  | .node l => .list (tolistList l)

/-- `tolist` mapped over the members of an array of arrays. -/
def tolistList : List NDArr → List PyVal
  | [] => []
  | a :: rest => NDArr.tolist a :: tolistList rest

end

mutual

/-- `convert_numpy` from `IPSAEResults.save`: `ndarray`s become
`tolist()` results, lists/tuples and dicts are converted recursively, and
every other value is returned unchanged. -/
def convert_numpy : PyVal → PyVal
  | .ndarray a => NDArr.tolist a
  | .list l => .list (convertList l)
  | .dict d => .dict (convertDict d)
  | .str s => .str s
  | .int n => .int n
  | .float q => .float q
  | .none => .none

/-- `convert_numpy` mapped over the items of a list. -/
def convertList : List PyVal → List PyVal
  | [] => []
  | v :: rest => convert_numpy v :: convertList rest

/-- `convert_numpy` mapped over the values of a dict. -/
def convertDict : List (String × PyVal) → List (String × PyVal)
  | [] => []
  | kv :: rest => (kv.1, convert_numpy kv.2) :: convertDict rest

end

mutual

/-- `true` when no `numpy` array occurs anywhere inside the value. -/
def PyVal.noArrays : PyVal → Bool
  | .ndarray _ => false
  | .list l => noArraysList l
  | .dict d => noArraysDict d
  | .str _ => true
  | .int _ => true
  | .float _ => true
  | .none => true

/-- `noArrays` over the items of a list. -/
def noArraysList : List PyVal → Bool
  | [] => true
  | v :: rest => v.noArrays && noArraysList rest

/-- `noArrays` over the values of a dict. -/
def noArraysDict : List (String × PyVal) → Bool
  | [] => true
  | kv :: rest => kv.2.noArrays && noArraysDict rest

end

/-- The runtime `StructureData` as `save` sees it: `coordinates` is a list of
`numpy` coordinate arrays and `pae_matrix` an optional `numpy` matrix. -/
structure StructureDataPy where
  chains : List String
  residues : List (String × Int × String)
  coordinates : List NDArr
  pae_matrix : Option NDArr

/-- `IPSAEResults` from `data_models.py`. -/
structure IPSAEResults where
  chain_chain_scores : List (ChainChainScore ℚ)
  residue_scores : List (ResidueScore ℚ)
  structure_data : StructureDataPy

/-- The record built for one `ChainChainScore` (`data_models.py` lines
66-78). -/
def chainScoreToPy (s : ChainChainScore ℚ) : PyVal :=
  .dict [
    ("chain1", .str s.chain1),
    ("chain2", .str s.chain2),
    ("ipsae_score", .float s.ipsae_score),
    ("pdockq_score", .float s.pdockq_score),
    ("lis_score", .float s.lis_score),
    ("avg_pae", .float s.avg_pae),
    ("avg_distance", .float s.avg_distance),
    ("num_interactions", .int s.num_interactions),
    ("valid_interactions", .list (s.valid_interactions.map fun p => .list [.int p.1, .int p.2])),
    ("pae_values", convert_numpy (.list (s.pae_values.map PyVal.float))),
    ("distances", convert_numpy (.list (s.distances.map PyVal.float)))]

/-- The record built for one `ResidueScore` (`data_models.py` lines 82-93). -/
def residueScoreToPy (s : ResidueScore ℚ) : PyVal :=
  .dict [
    ("chain", .str s.chain),
    ("residue_number", .int s.residue_number),
    ("residue_name", .str s.residue_name),
    ("ipsae_score", .float s.ipsae_score),
    ("avg_pae", .float s.avg_pae),
    ("avg_distance", .float s.avg_distance),
    ("num_interactions", .int s.num_interactions),
    ("valid_interactions", .list (s.valid_interactions.map fun p => .list [.int p.1, .int p.2])),
    ("pae_values", convert_numpy (.list (s.pae_values.map PyVal.float))),
    ("distances", convert_numpy (.list (s.distances.map PyVal.float)))]

/-- The `data` dictionary of `IPSAEResults.save` (`data_models.py` lines
64-102), i.e. the value handed to `json.dump`. -/
def save_data (r : IPSAEResults) : PyVal :=
  .dict [
    ("chain_chain_scores", .list (r.chain_chain_scores.map chainScoreToPy)),
    ("residue_scores", .list (r.residue_scores.map residueScoreToPy)),
    ("structure_data", .dict [
      ("chains", .list (r.structure_data.chains.map PyVal.str)),
      ("residues", .list (r.structure_data.residues.map fun t =>
        .list [.str t.1, .int t.2.1, .str t.2.2])),
      ("coordinates", convert_numpy (.list (r.structure_data.coordinates.map PyVal.ndarray))),
      ("pae_matrix", match r.structure_data.pae_matrix with
        | some m => convert_numpy (.ndarray m)
        | Option.none => .none)])]

/-- The key sequence of a dict value (empty for non-dicts). -/
def dictKeys : PyVal → List String
  | .dict d => d.map Prod.fst
  | _ => []

/-- Lookup of a key in a dict value. -/
def dictGet (v : PyVal) (k : String) : Option PyVal :=
  match v with
  | .dict d => (d.find? fun kv => kv.1 == k).map Prod.snd
  | _ => Option.none

/-- The Euclidean distance between two 3D points, written as the spec words
it ("Euclidean pairwise distance matrix over the coordinate sequence"), for
comparison against the `cdist` entries at `α = ℝ`. -/
noncomputable def euclideanDist (a b : ℝ × ℝ × ℝ) : ℝ :=
  Real.sqrt ((a.1 - b.1) ^ 2 + (a.2.1 - b.2.1) ^ 2 + (a.2.2 - b.2.2) ^ 2)

/-! ## Concrete sample inputs (used to evaluate the definitions) -/

/-- A two-chain structure with one residue per chain, both CA atoms at the
origin. -/
def sampleSD : StructureData ℚ :=
  { chains := ["A", "B"]
    residues := [("A", 1, "GLY"), ("B", 1, "GLY")]
    coordinates := [(0, 0, 0), (0, 0, 0)] }

/-- The all-zero PAE matrix as an entry function. -/
def zeroPAE : Nat → Nat → ℚ := fun _ _ => 0

/-- The chain-pair score the calculator emits on `sampleSD` with `zeroPAE`
(for any positive cutoffs and with the model exponential `fun _ => 0`). -/
def sampleChainScore : ChainChainScore ℚ :=
  { chain1 := "A", chain2 := "B", ipsae_score := 1, pdockq_score := 1, lis_score := 1,
    avg_pae := 0, avg_distance := 0, num_interactions := 1,
    valid_interactions := [(0, 1)], pae_values := [0], distances := [0] }

/-- The first residue score the calculator emits on `sampleSD` with
`zeroPAE`. -/
def sampleResidueScoreA : ResidueScore ℚ :=
  { chain := "A", residue_number := 1, residue_name := "GLY", ipsae_score := 1,
    avg_pae := 0, avg_distance := 0, num_interactions := 1,
    valid_interactions := [(0, 1)], pae_values := [0], distances := [0] }

/-- The second residue score the calculator emits on `sampleSD` with
`zeroPAE`. -/
def sampleResidueScoreB : ResidueScore ℚ :=
  { chain := "B", residue_number := 1, residue_name := "GLY", ipsae_score := 1,
    avg_pae := 0, avg_distance := 0, num_interactions := 1,
    valid_interactions := [(1, 0)], pae_values := [0], distances := [0] }

/-- A one-chain, one-residue structure used with an oversized PAE matrix. -/
def mismatchSD : StructureData ℚ :=
  { chains := ["A"]
    residues := [("A", 1, "GLY")]
    coordinates := [(0, 0, 0)] }

/-- A parsed structure with one model, one chain, and two residues that each
have one CA atom. -/
def sampleBio : BioStructure ℚ :=
  { models := [{ chains := [{ id := "A", residues := [
      { seqId := 1, resname := "GLY", atoms := [{ id := "CA", coord := (0, 0, 0) }] },
      { seqId := 2, resname := "ALA", atoms := [{ id := "CA", coord := (1, 0, 0) }] }] }] }] }

/-- Serialization input with one chain-pair record, one residue record, one
coordinate array and an attached 1x1 PAE matrix. -/
def sampleResults : IPSAEResults :=
  { chain_chain_scores := [sampleChainScore]
    residue_scores := [sampleResidueScoreA]
    structure_data :=
      { chains := ["A", "B"]
        residues := [("A", 1, "GLY"), ("B", 1, "GLY")]
        coordinates := [.node [.scalar 0, .scalar 0, .scalar 0]]
        pae_matrix := some (.node [.node [.scalar 0]]) } }

/-! ## Helper lemmas -/

theorem mean_le_of_forall_le {l : List α} (hne : l ≠ []) {c : α} (h : ∀ x ∈ l, x ≤ c) :
    mean l ≤ c := by
  have hlen : 0 < (l.length : α) := by
    have : 0 < l.length := List.length_pos.mpr hne
    exact_mod_cast this
  rw [mean, div_le_iff₀ hlen]
  calc l.sum ≤ l.length • c := List.sum_le_card_nsmul l c h
    _ = (l.length : α) * c := by rw [nsmul_eq_mul]
    _ = c * (l.length : α) := mul_comm _ _

theorem mean_nonneg {l : List α} (h : ∀ x ∈ l, 0 ≤ x) : 0 ≤ mean l :=
  div_nonneg (List.sum_nonneg h) (Nat.cast_nonneg _)

theorem chainPairScore_some_elim {pexp : α → α} {residues : List (String × Int × String)}
    {pae dist : Nat → Nat → α} {pc dc : α} {c : String × String} {s : ChainChainScore α}
    (h : chainPairScore pexp residues pae dist pc dc c = some s) :
    s.chain1 = c.1 ∧ s.chain2 = c.2 ∧
    s.valid_interactions =
      validInteractions pae dist pc dc (chainIndices residues c.1) (chainIndices residues c.2) ∧
    s.valid_interactions ≠ [] ∧
    s.pae_values = s.valid_interactions.map (fun p => pae p.1 p.2) ∧
    s.distances = s.valid_interactions.map (fun p => dist p.1 p.2) ∧
    s.num_interactions = s.valid_interactions.length ∧
    s.avg_pae = mean s.pae_values ∧
    s.avg_distance = mean s.distances ∧
    s.ipsae_score = 1 - s.avg_pae / pc ∧
    s.pdockq_score = 1 / (1 + pexp (-(1 / 2) * (s.avg_pae - 20))) ∧
    s.lis_score = (s.num_interactions : α) /
      (((chainIndices residues c.1).length * (chainIndices residues c.2).length : ℕ) : α) := by
  simp only [chainPairScore] at h
  split at h
  · exact absurd h (by simp)
  · next hne =>
    injection h with h
    subst h
    refine ⟨rfl, rfl, rfl, hne, rfl, rfl, rfl, rfl, rfl, rfl, rfl, rfl⟩

theorem chainPairScore_eq_none_iff {pexp : α → α} {residues : List (String × Int × String)}
    {pae dist : Nat → Nat → α} {pc dc : α} {c : String × String} :
    chainPairScore pexp residues pae dist pc dc c = none ↔
      validInteractions pae dist pc dc (chainIndices residues c.1) (chainIndices residues c.2)
        = [] := by
  simp only [chainPairScore]
  split
  · next he => simp [he]
  · next hne => simp [hne]

theorem residueScoreAt_some_elim {pae dist : Nat → Nat → α} {pc dc : α} {n : Nat}
    {p : Nat × String × Int × String} {s : ResidueScore α}
    (h : residueScoreAt pae dist pc dc n p = some s) :
    s.chain = p.2.1 ∧ s.residue_number = p.2.2.1 ∧ s.residue_name = p.2.2.2 ∧
    s.valid_interactions = residuePartners pae dist pc dc n p.1 ∧
    s.valid_interactions ≠ [] ∧
    s.pae_values = s.valid_interactions.map (fun q => pae q.1 q.2) ∧
    s.distances = s.valid_interactions.map (fun q => dist q.1 q.2) ∧
    s.num_interactions = s.valid_interactions.length ∧
    s.avg_pae = mean s.pae_values ∧
    s.avg_distance = mean s.distances ∧
    s.ipsae_score = 1 - s.avg_pae / pc := by
  simp only [residueScoreAt] at h
  split at h
  · exact absurd h (by simp)
  · next hne =>
    injection h with h
    subst h
    refine ⟨rfl, rfl, rfl, rfl, hne, rfl, rfl, rfl, rfl, rfl, rfl⟩

theorem residueScoreAt_eq_none_iff {pae dist : Nat → Nat → α} {pc dc : α} {n : Nat}
    {p : Nat × String × Int × String} :
    residueScoreAt pae dist pc dc n p = none ↔
      residuePartners pae dist pc dc n p.1 = [] := by
  simp only [residueScoreAt]
  split
  · next he => simp [he]
  · next hne => simp [hne]

theorem fst_mem_of_mem_chainPairs :
    ∀ {cs : List String} {p : String × String}, p ∈ chainPairs cs → p.1 ∈ cs := by
  intro cs
  induction cs with
  | nil => intro p h; simp [chainPairs] at h
  | cons c rest ih =>
    intro p h
    rcases List.mem_append.mp h with h1 | h2
    · rcases List.mem_map.mp h1 with ⟨c2, _, rfl⟩
      exact List.mem_cons_self _ _
    · exact List.mem_cons_of_mem _ (ih h2)

theorem mem_chainPairs_iff {cs : List String} (hs : List.Sorted (· < ·) cs) {a b : String} :
    (a, b) ∈ chainPairs cs ↔ a ∈ cs ∧ b ∈ cs ∧ a < b := by
  induction cs with
  | nil => simp [chainPairs]
  | cons c rest ih =>
    rw [List.sorted_cons] at hs
    obtain ⟨hlt, hrest⟩ := hs
    simp only [chainPairs, List.mem_append, List.mem_map, List.mem_cons, ih hrest]
    constructor
    · rintro (⟨c2, hc2, heq⟩ | ⟨ha, hb, hab⟩)
      · rw [Prod.ext_iff] at heq
        obtain ⟨rfl, rfl⟩ := heq
        exact ⟨Or.inl rfl, Or.inr hc2, hlt _ hc2⟩
      · exact ⟨Or.inr ha, Or.inr hb, hab⟩
    · rintro ⟨ha | ha, hb | hb, hab⟩
      · subst ha; subst hb; exact absurd hab (lt_irrefl _)
      · subst ha; exact Or.inl ⟨b, hb, rfl⟩
      · subst hb; exact absurd hab (asymm (hlt _ ha))
      · exact Or.inr ⟨ha, hb, hab⟩

theorem chainPairs_nodup {cs : List String} (h : cs.Nodup) : (chainPairs cs).Nodup := by
  induction cs with
  | nil => simp [chainPairs]
  | cons c rest ih =>
    rw [List.nodup_cons] at h
    obtain ⟨hc, hrest⟩ := h
    rw [chainPairs]
    refine List.Nodup.append ?_ (ih hrest) ?_
    · exact (hrest.map (fun x y hxy => (Prod.ext_iff.mp hxy).2))
    · rw [List.disjoint_left]
      rintro p hp hq
      rcases List.mem_map.mp hp with ⟨c2, _, rfl⟩
      exact hc (fst_mem_of_mem_chainPairs hq)

theorem chainPairs_sortedLex {cs : List String} (hs : List.Sorted (· < ·) cs) :
    List.Pairwise (fun p q : String × String => p.1 < q.1 ∨ p.1 = q.1 ∧ p.2 < q.2)
      (chainPairs cs) := by
  induction cs with
  | nil => simp [chainPairs]
  | cons c rest ih =>
    rw [List.sorted_cons] at hs
    obtain ⟨hlt, hrest⟩ := hs
    rw [chainPairs, List.pairwise_append]
    refine ⟨?_, ih hrest, ?_⟩
    · rw [List.pairwise_map]
      exact List.Pairwise.imp (fun h => Or.inr ⟨rfl, h⟩) hrest
    · intro p hp q hq
      rcases List.mem_map.mp hp with ⟨x, _, rfl⟩
      exact Or.inl (hlt _ (fst_mem_of_mem_chainPairs hq))

theorem uniqueSortedChains_sorted (cs : List String) :
    List.Sorted (· < ·) (uniqueSortedChains cs) := by
  have hle : List.Sorted (· ≤ ·) (uniqueSortedChains cs) :=
    List.sorted_insertionSort _ _
  have hnd : (uniqueSortedChains cs).Nodup :=
    ((List.perm_insertionSort _ _).nodup_iff).mpr (List.nodup_dedup cs)
  exact List.Sorted.lt_of_le hle hnd

theorem mem_uniqueSortedChains {cs : List String} {a : String} :
    a ∈ uniqueSortedChains cs ↔ a ∈ cs := by
  rw [uniqueSortedChains, (List.perm_insertionSort _ _).mem_iff, List.mem_dedup]

theorem fst_lt_of_mem_enum {β : Type} {l : List β} {p : Nat × β} (h : p ∈ l.enum) :
    p.1 < l.length := by
  rw [List.mem_enum_iff_getElem?] at h
  exact (List.getElem?_eq_some.mp h).1

theorem snd_eq_get_of_mem_enum {β : Type} {l : List β} {p : Nat × β} (h : p ∈ l.enum) :
    ∀ hlt : p.1 < l.length, l.get ⟨p.1, hlt⟩ = p.2 := by
  intro hlt
  rw [List.mem_enum_iff_getElem?, List.getElem?_eq_getElem hlt] at h
  exact Option.some.inj h

theorem mk_get_mem_enum {β : Type} {l : List β} {i : Nat} (h : i < l.length) :
    (i, l.get ⟨i, h⟩) ∈ l.enum := by
  rw [List.mem_enum_iff_getElem?]
  exact List.getElem?_eq_getElem h

theorem length_filterMap_eq_length_filter {β γ : Type} (f : β → Option γ) :
    ∀ l : List β, (l.filterMap f).length = (l.filter fun x => (f x).isSome).length
  | [] => rfl
  | x :: rest => by
    cases hfx : f x <;>
      simp [List.filterMap_cons, hfx, List.filter_cons,
        length_filterMap_eq_length_filter f rest]

theorem mem_chainIndices_lt {residues : List (String × Int × String)} {c : String} {k : Nat}
    (h : k ∈ chainIndices residues c) : k < residues.length := by
  rw [chainIndices] at h
  rcases List.mem_map.mp h with ⟨p, hp, rfl⟩
  exact fst_lt_of_mem_enum (List.mem_of_mem_filter hp)

theorem sortedChains_AB : uniqueSortedChains ["A", "B"] = ["A", "B"] := by
  simp [uniqueSortedChains, List.insertionSort, List.orderedInsert]
  decide

theorem beq_A_B : (("A" : String) == "B") = false := by decide

theorem beq_B_A : (("B" : String) == "A") = false := by decide

theorem beq_A_A : (("A" : String) == "A") = true := by decide

theorem beq_B_B : (("B" : String) == "B") = true := by decide

theorem calc_cc_sample {pc dc : ℚ} (hpc : 0 ≤ pc) (hdc : 0 ≤ dc) :
    calculate_chain_chain_scores (fun x => x) (fun _ => 0) sampleSD zeroPAE pc dc
      = [sampleChainScore] := by
  norm_num [calculate_chain_chain_scores, sampleSD, sampleChainScore, zeroPAE, sortedChains_AB,
    chainPairs, chainPairScore, chainIndices, validInteractions, cdist, sqNorm, mean,
    List.filterMap, List.enum, List.enumFrom, List.product, List.filter,
    beq_A_B, beq_B_A, beq_A_A, beq_B_B, hpc, hdc]

theorem beq_nat_01 : ((0 : Nat) == 1) = false := by decide

theorem beq_nat_10 : ((1 : Nat) == 0) = false := by decide

theorem calc_res_sample {pc dc : ℚ} (hpc : 0 ≤ pc) (hdc : 0 ≤ dc) :
    calculate_residue_scores (fun x => x) sampleSD zeroPAE pc dc
      = [sampleResidueScoreA, sampleResidueScoreB] := by
  norm_num [calculate_residue_scores, sampleSD, sampleResidueScoreA, sampleResidueScoreB,
    zeroPAE, residueScoreAt, residuePartners, cdist, sqNorm, mean,
    List.filterMap, List.enum, List.enumFrom, List.range_succ, List.filter,
    beq_nat_01, beq_nat_10, Bool.not_true, Bool.not_false, hpc, hdc]

theorem chainPairScore_isSome_eq {pexp : α → α} {residues : List (String × Int × String)}
    {pae dist : Nat → Nat → α} {pc dc : α} (c : String × String) :
    (chainPairScore pexp residues pae dist pc dc c).isSome =
      !(validInteractions pae dist pc dc (chainIndices residues c.1)
        (chainIndices residues c.2)).isEmpty := by
  by_cases hv : validInteractions pae dist pc dc (chainIndices residues c.1)
      (chainIndices residues c.2) = []
  · rw [chainPairScore_eq_none_iff.mpr hv]
    simp [hv]
  · obtain ⟨s, hs⟩ := Option.ne_none_iff_exists'.mp
      (fun h => hv (chainPairScore_eq_none_iff.mp h))
    rw [hs]
    have hE : (validInteractions pae dist pc dc (chainIndices residues c.1)
        (chainIndices residues c.2)).isEmpty = false := by
      simp [List.isEmpty_iff, hv]
    rw [hE]
    rfl

theorem residueScoreAt_isSome_eq {pae dist : Nat → Nat → α} {pc dc : α} {n : Nat}
    (p : Nat × String × Int × String) :
    (residueScoreAt pae dist pc dc n p).isSome =
      !(residuePartners pae dist pc dc n p.1).isEmpty := by
  by_cases hv : residuePartners pae dist pc dc n p.1 = []
  · rw [residueScoreAt_eq_none_iff.mpr hv]
    simp [hv]
  · obtain ⟨s, hs⟩ := Option.ne_none_iff_exists'.mp
      (fun h => hv (residueScoreAt_eq_none_iff.mp h))
    rw [hs]
    have hE : (residuePartners pae dist pc dc n p.1).isEmpty = false := by
      simp [List.isEmpty_iff, hv]
    rw [hE]
    rfl

theorem beq_A_C : (("A" : String) == "C") = false := by decide

theorem beq_B_C : (("B" : String) == "C") = false := by decide

/-! ## Claim theorems -/

/-- **C1**: For every chain pair emitted by `calculate_chain_chain_scores` with a
non-empty qualifying set, the four derived values equal:
`ipsae_score = 1 - (mean of the qualifying PAE values / pae_cutoff)`;
`pdockq_score = 1 / (1 + exp (-0.5 * (mean PAE - 20)))` (with the model
exponential `pexp`); `lis_score = (number of qualifying pairs) /
(number of chain1 residues * number of chain2 residues)`; and
`avg_pae` / `avg_distance` are the arithmetic means of the qualifying PAE and
distance values. -/
theorem chain_pair_derived_value_formulas (psqrt pexp : α → α) (sd : StructureData α)
    (pae : Nat → Nat → α) (pae_cutoff distance_cutoff : α) (s : ChainChainScore α)
    (hs : s ∈ calculate_chain_chain_scores psqrt pexp sd pae pae_cutoff distance_cutoff) :
    s.valid_interactions ≠ [] ∧
    s.pae_values = s.valid_interactions.map (fun p => pae p.1 p.2) ∧
    s.distances = s.valid_interactions.map (fun p => cdist psqrt sd.coordinates p.1 p.2) ∧
    s.avg_pae = mean s.pae_values ∧
    s.avg_distance = mean s.distances ∧
    s.ipsae_score = 1 - s.avg_pae / pae_cutoff ∧
    s.pdockq_score = 1 / (1 + pexp (-(1 / 2) * (s.avg_pae - 20))) ∧
    s.num_interactions = s.valid_interactions.length ∧
    s.lis_score = (s.num_interactions : α) /
      (((chainIndices sd.residues s.chain1).length *
        (chainIndices sd.residues s.chain2).length : ℕ) : α) := by
  simp only [calculate_chain_chain_scores, List.mem_filterMap] at hs
  obtain ⟨c, hcmem, hc⟩ := hs
  obtain ⟨h1, h2, _, h4, h5, h6, h7, h8, h9, h10, h11, h12⟩ := chainPairScore_some_elim hc
  refine ⟨h4, h5, h6, h8, h9, h10, h11, h7, ?_⟩
  rw [h1, h2]
  exact h12

/-- Witness for C1 at a concrete input: the sample score is emitted, and its
`ipsae_score` and `pdockq_score` satisfy the stated formulas. -/
theorem chain_pair_derived_value_formulas_witness :
    sampleChainScore ∈
      calculate_chain_chain_scores (fun x => x) (fun _ => 0) sampleSD zeroPAE 30 8 ∧
    sampleChainScore.ipsae_score = 1 - sampleChainScore.avg_pae / 30 ∧
    sampleChainScore.pdockq_score =
      1 / (1 + (fun _ : ℚ => (0 : ℚ)) (-(1 / 2) * (sampleChainScore.avg_pae - 20))) := by
  have hmem : sampleChainScore ∈
      calculate_chain_chain_scores (fun x => x) (fun _ => 0) sampleSD zeroPAE 30 8 := by
    rw [calc_cc_sample (by norm_num) (by norm_num)]
    exact List.mem_singleton_self _
  have h := chain_pair_derived_value_formulas (fun x => x) (fun _ => 0) sampleSD zeroPAE
    30 8 sampleChainScore hmem
  exact ⟨hmem, h.2.2.2.2.2.1, h.2.2.2.2.2.2.1⟩

/-- **C6**: For every emitted `ChainChainScore` and `ResidueScore`,
`num_interactions` equals the length of its retained `valid_interactions`
list, and `avg_pae` / `avg_distance` equal the arithmetic mean of the
`pae_values` / `distances` lists stored in that same record (the equality is
exact, hence within any tolerance). -/
theorem aggregate_internal_consistency (psqrt pexp : α → α) (sd : StructureData α)
    (pae : Nat → Nat → α) (pc dc : α) :
    (∀ s ∈ calculate_chain_chain_scores psqrt pexp sd pae pc dc,
      s.num_interactions = s.valid_interactions.length ∧
      s.pae_values.length = s.num_interactions ∧
      s.distances.length = s.num_interactions ∧
      s.avg_pae = mean s.pae_values ∧
      s.avg_distance = mean s.distances) ∧
    (∀ t ∈ calculate_residue_scores psqrt sd pae pc dc,
      t.num_interactions = t.valid_interactions.length ∧
      t.pae_values.length = t.num_interactions ∧
      t.distances.length = t.num_interactions ∧
      t.avg_pae = mean t.pae_values ∧
      t.avg_distance = mean t.distances) := by
  constructor
  · intro s hs
    simp only [calculate_chain_chain_scores, List.mem_filterMap] at hs
    obtain ⟨c, _, hc⟩ := hs
    obtain ⟨_, _, _, _, h5, h6, h7, h8, h9, _, _, _⟩ := chainPairScore_some_elim hc
    exact ⟨h7, by rw [h5, List.length_map, h7], by rw [h6, List.length_map, h7], h8, h9⟩
  · intro t ht
    simp only [calculate_residue_scores, List.mem_filterMap] at ht
    obtain ⟨p, _, hp⟩ := ht
    obtain ⟨_, _, _, _, _, h6, h7, h8, h9, h10, _⟩ := residueScoreAt_some_elim hp
    exact ⟨h8, by rw [h6, List.length_map, h8], by rw [h7, List.length_map, h8], h9, h10⟩

/-- Witness for C6 at a concrete input. -/
theorem aggregate_internal_consistency_witness :
    sampleChainScore.num_interactions = sampleChainScore.valid_interactions.length ∧
    sampleChainScore.avg_pae = mean sampleChainScore.pae_values ∧
    sampleResidueScoreA.avg_distance = mean sampleResidueScoreA.distances := by
  have h := aggregate_internal_consistency (fun x => x) (fun _ => 0) sampleSD zeroPAE
    (30 : ℚ) 8
  have h1 := h.1 sampleChainScore
    (by rw [calc_cc_sample (by norm_num) (by norm_num)]; exact List.mem_singleton_self _)
  have h2 := h.2 sampleResidueScoreA
    (by rw [calc_res_sample (by norm_num) (by norm_num)]; exact List.mem_cons_self _ _)
  exact ⟨h1.1, h1.2.2.2.1, h2.2.2.2.2⟩

/-- **C2**: `calculate_chain_chain_scores` enumerates the distinct chain labels
sorted lexicographically, visits every unordered pair of distinct chains
(`chain1 < chain2`) exactly once in that sorted order, and collects exactly the
residue-index pairs from the two chains whose PAE and distance both satisfy the
cutoffs — where at `α = ℝ` with `psqrt = Real.sqrt` the distance entry is the
Euclidean distance over the coordinate sequence (it is the nonnegative number
whose square is the squared coordinate difference, and it is symmetric). -/
theorem chain_enumeration_and_selection (cs : List String) :
    List.Sorted (· < ·) (uniqueSortedChains cs) ∧
    (∀ a, a ∈ uniqueSortedChains cs ↔ a ∈ cs) ∧
    (∀ a b, (a, b) ∈ chainPairs (uniqueSortedChains cs) ↔ a ∈ cs ∧ b ∈ cs ∧ a < b) ∧
    (chainPairs (uniqueSortedChains cs)).Nodup ∧
    List.Pairwise (fun p q : String × String => p.1 < q.1 ∨ p.1 = q.1 ∧ p.2 < q.2)
      (chainPairs (uniqueSortedChains cs)) ∧
    (∀ (psqrt pexp : α → α) (sd : StructureData α) (pae : Nat → Nat → α) (pc dc : α),
      ∀ s ∈ calculate_chain_chain_scores psqrt pexp sd pae pc dc,
        s.valid_interactions =
          ((chainIndices sd.residues s.chain1).product
            (chainIndices sd.residues s.chain2)).filter
            (fun p => decide (pae p.1 p.2 ≤ pc) &&
              decide (cdist psqrt sd.coordinates p.1 p.2 ≤ dc))) ∧
    (∀ (coords : List (ℝ × ℝ × ℝ)) (i j : Nat),
      cdist Real.sqrt coords i j =
        euclideanDist (coords.getD i (0, 0, 0)) (coords.getD j (0, 0, 0)) ∧
      0 ≤ cdist Real.sqrt coords i j ∧
      cdist Real.sqrt coords i j ^ 2 =
        sqNorm (coords.getD i (0, 0, 0)) (coords.getD j (0, 0, 0)) ∧
      cdist Real.sqrt coords i j = cdist Real.sqrt coords j i) := by
  have hsorted := uniqueSortedChains_sorted cs
  refine ⟨hsorted, fun a => mem_uniqueSortedChains, ?_, ?_, chainPairs_sortedLex hsorted,
    ?_, ?_⟩
  · intro a b
    rw [mem_chainPairs_iff hsorted, mem_uniqueSortedChains, mem_uniqueSortedChains]
  · exact chainPairs_nodup hsorted.nodup
  · intro psqrt pexp sd pae pc dc s hs
    simp only [calculate_chain_chain_scores, List.mem_filterMap] at hs
    obtain ⟨c, _, hc⟩ := hs
    obtain ⟨h1, h2, h3, _⟩ := chainPairScore_some_elim hc
    rw [h1, h2, h3]
    rfl
  · intro coords i j
    have hnn : 0 ≤ sqNorm (coords.getD i (0, 0, 0)) (coords.getD j (0, 0, 0)) := by
      rw [sqNorm]; positivity
    refine ⟨rfl, Real.sqrt_nonneg _, Real.sq_sqrt hnn, ?_⟩
    show Real.sqrt _ = Real.sqrt _
    congr 1
    rw [sqNorm, sqNorm]
    ring

/-- Witness for C2 at concrete inputs: the enumeration facts at the chain list
`["B", "A"]` and the selection identity at the emitted sample score. -/
theorem chain_enumeration_and_selection_witness :
    List.Sorted (· < ·) (uniqueSortedChains ["B", "A"]) ∧
    (("A", "B") ∈ chainPairs (uniqueSortedChains ["B", "A"]) ↔
      "A" ∈ ["B", "A"] ∧ "B" ∈ ["B", "A"] ∧ "A" < "B") ∧
    sampleChainScore.valid_interactions =
      ((chainIndices sampleSD.residues sampleChainScore.chain1).product
        (chainIndices sampleSD.residues sampleChainScore.chain2)).filter
        (fun p => decide (zeroPAE p.1 p.2 ≤ (30 : ℚ)) &&
          decide (cdist (fun x => x) sampleSD.coordinates p.1 p.2 ≤ (8 : ℚ))) := by
  refine ⟨(chain_enumeration_and_selection (α := ℚ) ["B", "A"]).1,
    (chain_enumeration_and_selection (α := ℚ) ["B", "A"]).2.2.1 "A" "B", ?_⟩
  exact (chain_enumeration_and_selection (α := ℚ) sampleSD.chains).2.2.2.2.2.1
    (fun x => x) (fun _ => 0) sampleSD zeroPAE 30 8 sampleChainScore
    (by rw [calc_cc_sample (by norm_num) (by norm_num)]; exact List.mem_singleton_self _)

/-- **C3**: For every residue index `i`, `calculate_residue_scores` scans every
other index `j ≠ i` across the whole structure (same-chain partners included),
retains exactly the `j` with `pae i j ≤ pae_cutoff` and
`dist i j ≤ distance_cutoff`, and when at least one partner qualifies emits the
residue's chain, residue number, residue name, partner count, mean PAE, mean
distance, the score `1 - mean_PAE / pae_cutoff`, and the raw partner list;
conversely every residue with a qualifying partner is emitted. -/
theorem residue_scan_characterization (psqrt : α → α) (sd : StructureData α)
    (pae : Nat → Nat → α) (pc dc : α) :
    (∀ t ∈ calculate_residue_scores psqrt sd pae pc dc,
      ∃ i, ∃ h : i < sd.residues.length,
        sd.residues.get ⟨i, h⟩ = (t.chain, t.residue_number, t.residue_name) ∧
        t.valid_interactions =
          ((List.range sd.coordinates.length).filter fun j =>
            !(i == j) && decide (pae i j ≤ pc) &&
              decide (cdist psqrt sd.coordinates i j ≤ dc)).map (fun j => (i, j)) ∧
        t.valid_interactions ≠ [] ∧
        t.num_interactions = t.valid_interactions.length ∧
        t.pae_values = t.valid_interactions.map (fun q => pae q.1 q.2) ∧
        t.distances = t.valid_interactions.map (fun q => cdist psqrt sd.coordinates q.1 q.2) ∧
        t.avg_pae = mean t.pae_values ∧
        t.avg_distance = mean t.distances ∧
        t.ipsae_score = 1 - t.avg_pae / pc) ∧
    (∀ i (h : i < sd.residues.length),
      residuePartners pae (cdist psqrt sd.coordinates) pc dc sd.coordinates.length i ≠ [] →
      ∃ t ∈ calculate_residue_scores psqrt sd pae pc dc,
        t.chain = (sd.residues.get ⟨i, h⟩).1 ∧
        t.residue_number = (sd.residues.get ⟨i, h⟩).2.1 ∧
        t.residue_name = (sd.residues.get ⟨i, h⟩).2.2 ∧
        t.valid_interactions =
          residuePartners pae (cdist psqrt sd.coordinates) pc dc sd.coordinates.length i) := by
  constructor
  · intro t ht
    simp only [calculate_residue_scores, List.mem_filterMap] at ht
    obtain ⟨p, hpmem, hp⟩ := ht
    have hlt := fst_lt_of_mem_enum hpmem
    obtain ⟨e1, e2, e3, h4, h5, h6, h7, h8, h9, h10, h11⟩ := residueScoreAt_some_elim hp
    refine ⟨p.1, hlt, ?_, ?_, h5, h8, h6, h7, h9, h10, h11⟩
    · rw [snd_eq_get_of_mem_enum hpmem hlt, e1, e2, e3]
    · rw [h4]
      rfl
  · intro i h hne
    have hp : residueScoreAt pae (cdist psqrt sd.coordinates) pc dc sd.coordinates.length
        (i, sd.residues.get ⟨i, h⟩) ≠ none := by
      intro hcontra
      exact hne (residueScoreAt_eq_none_iff.mp hcontra)
    obtain ⟨t, ht⟩ := Option.ne_none_iff_exists'.mp hp
    refine ⟨t, ?_, ?_⟩
    · simp only [calculate_residue_scores, List.mem_filterMap]
      exact ⟨(i, sd.residues.get ⟨i, h⟩), mk_get_mem_enum h, ht⟩
    · obtain ⟨e1, e2, e3, h4, _⟩ := residueScoreAt_some_elim ht
      exact ⟨e1, e2, e3, h4⟩

/-- Witness for C3 at a concrete input: the first sample residue score is
emitted, has a nonempty partner list, and satisfies the score formula. -/
theorem residue_scan_characterization_witness :
    sampleResidueScoreA ∈ calculate_residue_scores (fun x => x) sampleSD zeroPAE (30 : ℚ) 8 ∧
    sampleResidueScoreA.valid_interactions ≠ [] ∧
    sampleResidueScoreA.ipsae_score = 1 - sampleResidueScoreA.avg_pae / 30 := by
  have hmem : sampleResidueScoreA ∈
      calculate_residue_scores (fun x => x) sampleSD zeroPAE (30 : ℚ) 8 := by
    rw [calc_res_sample (by norm_num) (by norm_num)]
    exact List.mem_cons_self _ _
  obtain ⟨i, hi, _, _, hne, _, _, _, _, _, hips⟩ :=
    (residue_scan_characterization (fun x => x) sampleSD zeroPAE (30 : ℚ) 8).1
      sampleResidueScoreA hmem
  exact ⟨hmem, hne, hips⟩

/-- **C4**: A chain pair whose set of qualifying residue-index pairs is empty
produces no `ChainChainScore` entry at all, and a residue with no qualifying
partner produces no `ResidueScore` entry: every emitted record has a nonempty
retained list, no record exists for a pair whose qualifying set is empty (even
when other pairs are emitted), and the output lengths equal the number of
pairs/residues with a nonempty qualifying set. -/
theorem omission_law (psqrt pexp : α → α) (sd : StructureData α)
    (pae : Nat → Nat → α) (pc dc : α) :
    (∀ s ∈ calculate_chain_chain_scores psqrt pexp sd pae pc dc,
      s.valid_interactions ≠ []) ∧
    (∀ c1 c2, validInteractions pae (cdist psqrt sd.coordinates) pc dc
        (chainIndices sd.residues c1) (chainIndices sd.residues c2) = [] →
      ∀ s ∈ calculate_chain_chain_scores psqrt pexp sd pae pc dc,
        ¬(s.chain1 = c1 ∧ s.chain2 = c2)) ∧
    (calculate_chain_chain_scores psqrt pexp sd pae pc dc).length =
      ((chainPairs (uniqueSortedChains sd.chains)).filter fun c =>
        !(validInteractions pae (cdist psqrt sd.coordinates) pc dc
          (chainIndices sd.residues c.1) (chainIndices sd.residues c.2)).isEmpty).length ∧
    (∀ t ∈ calculate_residue_scores psqrt sd pae pc dc, t.valid_interactions ≠ []) ∧
    (calculate_residue_scores psqrt sd pae pc dc).length =
      ((sd.residues.enum).filter fun p =>
        !(residuePartners pae (cdist psqrt sd.coordinates) pc dc
          sd.coordinates.length p.1).isEmpty).length := by
  refine ⟨?_, ?_, ?_, ?_, ?_⟩
  · intro s hs
    simp only [calculate_chain_chain_scores, List.mem_filterMap] at hs
    obtain ⟨c, _, hc⟩ := hs
    exact (chainPairScore_some_elim hc).2.2.2.1
  · rintro c1 c2 hempty s hs ⟨he1, he2⟩
    simp only [calculate_chain_chain_scores, List.mem_filterMap] at hs
    obtain ⟨c, _, hc⟩ := hs
    obtain ⟨h1, h2, h3, h4, _⟩ := chainPairScore_some_elim hc
    have hc1 : c.1 = c1 := by rw [← h1, he1]
    have hc2 : c.2 = c2 := by rw [← h2, he2]
    refine h4 ?_
    rw [h3, hc1, hc2]
    exact hempty
  · simp only [calculate_chain_chain_scores]
    rw [length_filterMap_eq_length_filter]
    congr 1
    refine List.filter_congr ?_
    intro c _
    exact chainPairScore_isSome_eq c
  · intro t ht
    simp only [calculate_residue_scores, List.mem_filterMap] at ht
    obtain ⟨p, _, hp⟩ := ht
    exact (residueScoreAt_some_elim hp).2.2.2.2.1
  · simp only [calculate_residue_scores]
    rw [length_filterMap_eq_length_filter]
    congr 1
    refine List.filter_congr ?_
    intro p _
    exact residueScoreAt_isSome_eq p

/-- Witness for C4 at a concrete input: the emitted sample pair has a nonempty
qualifying set, no record is emitted for the contact-free pair ("C", "B"), and
the residue output length equals the count of residues with partners. -/
theorem omission_law_witness :
    sampleChainScore.valid_interactions ≠ [] ∧
    ¬(sampleChainScore.chain1 = "C" ∧ sampleChainScore.chain2 = "B") ∧
    (calculate_residue_scores (fun x => x) sampleSD zeroPAE (30 : ℚ) 8).length =
      ((sampleSD.residues.enum).filter fun p =>
        !(residuePartners zeroPAE (cdist (fun x => x) sampleSD.coordinates) 30 8
          sampleSD.coordinates.length p.1).isEmpty).length := by
  have h := omission_law (fun x => x) (fun _ => 0) sampleSD zeroPAE (30 : ℚ) 8
  have hmem : sampleChainScore ∈
      calculate_chain_chain_scores (fun x => x) (fun _ => 0) sampleSD zeroPAE 30 8 := by
    rw [calc_cc_sample (by norm_num) (by norm_num)]
    exact List.mem_singleton_self _
  have hempty : validInteractions zeroPAE (cdist (fun x => x) sampleSD.coordinates) (30 : ℚ) 8
      (chainIndices sampleSD.residues "C") (chainIndices sampleSD.residues "B") = [] := by
    norm_num [validInteractions, chainIndices, sampleSD, List.enum, List.enumFrom,
      List.filter, List.product, beq_A_C, beq_B_C]
  exact ⟨h.1 sampleChainScore hmem, h.2.1 "C" "B" hempty sampleChainScore hmem,
    h.2.2.2.2⟩

theorem validInteractions_sublist {pae dist : Nat → Nat → α} {p1 p2 dc : α} (h12 : p1 ≤ p2)
    (idx1 idx2 : List Nat) :
    List.Sublist (validInteractions pae dist p1 dc idx1 idx2)
      (validInteractions pae dist p2 dc idx1 idx2) := by
  refine List.monotone_filter_right _ ?_
  intro a ha
  simp only [Bool.and_eq_true, decide_eq_true_eq] at ha ⊢
  exact ⟨le_trans ha.1 h12, ha.2⟩

theorem residuePartners_sublist {pae dist : Nat → Nat → α} {p1 p2 dc : α} (h12 : p1 ≤ p2)
    (n i : Nat) :
    List.Sublist (residuePartners pae dist p1 dc n i) (residuePartners pae dist p2 dc n i) := by
  refine List.Sublist.map _ (List.monotone_filter_right _ ?_)
  intro a ha
  simp only [Bool.and_eq_true, decide_eq_true_eq] at ha ⊢
  exact ⟨⟨ha.1.1, le_trans ha.1.2 h12⟩, ha.2⟩

/-- **C7**: For fixed data and distance cutoff and PAE cutoffs `p1 ≤ p2`,
every chain pair (and every residue) emitted at cutoff `p1` is also emitted at
cutoff `p2`, with at least as many interactions. -/
theorem pae_cutoff_monotone (psqrt pexp : α → α) (sd : StructureData α)
    (pae : Nat → Nat → α) (dc : α) {p1 p2 : α} (h12 : p1 ≤ p2) :
    (∀ s1 ∈ calculate_chain_chain_scores psqrt pexp sd pae p1 dc,
      ∃ s2 ∈ calculate_chain_chain_scores psqrt pexp sd pae p2 dc,
        s2.chain1 = s1.chain1 ∧ s2.chain2 = s1.chain2 ∧
        s1.num_interactions ≤ s2.num_interactions) ∧
    (∀ t1 ∈ calculate_residue_scores psqrt sd pae p1 dc,
      ∃ t2 ∈ calculate_residue_scores psqrt sd pae p2 dc,
        t2.chain = t1.chain ∧ t2.residue_number = t1.residue_number ∧
        t2.residue_name = t1.residue_name ∧
        t1.num_interactions ≤ t2.num_interactions) := by
  constructor
  · intro s1 hs1
    simp only [calculate_chain_chain_scores, List.mem_filterMap] at hs1 ⊢
    obtain ⟨c, hcmem, hc⟩ := hs1
    obtain ⟨h1, h2, h3, h4, _, _, h7, _⟩ := chainPairScore_some_elim hc
    have hsub := @validInteractions_sublist α _ pae (cdist psqrt sd.coordinates) p1 p2 dc
      h12 (chainIndices sd.residues c.1) (chainIndices sd.residues c.2)
    have hne2 : validInteractions pae (cdist psqrt sd.coordinates) p2 dc
        (chainIndices sd.residues c.1) (chainIndices sd.residues c.2) ≠ [] := by
      intro hnil
      rw [hnil] at hsub
      exact h4 (by rw [h3]; exact List.sublist_nil.mp hsub)
    have hp2 : chainPairScore pexp sd.residues pae (cdist psqrt sd.coordinates) p2 dc c
        ≠ none := fun h => hne2 (chainPairScore_eq_none_iff.mp h)
    obtain ⟨s2, hs2⟩ := Option.ne_none_iff_exists'.mp hp2
    obtain ⟨g1, g2, g3, _, _, _, g7, _⟩ := chainPairScore_some_elim hs2
    refine ⟨s2, ⟨c, hcmem, hs2⟩, by rw [g1, h1], by rw [g2, h2], ?_⟩
    rw [h7, g7, h3, g3]
    exact List.Sublist.length_le hsub
  · intro t1 ht1
    simp only [calculate_residue_scores, List.mem_filterMap] at ht1 ⊢
    obtain ⟨p, hpmem, hp⟩ := ht1
    obtain ⟨e1, e2, e3, h4, h5, _, _, h8, _⟩ := residueScoreAt_some_elim hp
    have hsub := @residuePartners_sublist α _ pae (cdist psqrt sd.coordinates) p1 p2 dc
      h12 sd.coordinates.length p.1
    have hne2 : residuePartners pae (cdist psqrt sd.coordinates) p2 dc
        sd.coordinates.length p.1 ≠ [] := by
      intro hnil
      rw [hnil] at hsub
      exact h5 (by rw [h4]; exact List.sublist_nil.mp hsub)
    have hp2 : residueScoreAt pae (cdist psqrt sd.coordinates) p2 dc
        sd.coordinates.length p ≠ none := fun h => hne2 (residueScoreAt_eq_none_iff.mp h)
    obtain ⟨t2, ht2⟩ := Option.ne_none_iff_exists'.mp hp2
    obtain ⟨g1, g2, g3, g4, _, _, _, g8, _⟩ := residueScoreAt_some_elim ht2
    refine ⟨t2, ⟨p, hpmem, ht2⟩, by rw [g1, e1], by rw [g2, e2], by rw [g3, e3], ?_⟩
    rw [h8, g8, h4, g4]
    exact List.Sublist.length_le hsub

/-- Witness for C7 at concrete cutoffs 20 ≤ 30 on the sample input. -/
theorem pae_cutoff_monotone_witness :
    sampleChainScore ∈
      calculate_chain_chain_scores (fun x => x) (fun _ => 0) sampleSD zeroPAE (20 : ℚ) 8 ∧
    sampleChainScore.num_interactions ≤ sampleChainScore.num_interactions := by
  have hmem20 : sampleChainScore ∈
      calculate_chain_chain_scores (fun x => x) (fun _ => 0) sampleSD zeroPAE (20 : ℚ) 8 := by
    rw [calc_cc_sample (by norm_num) (by norm_num)]
    exact List.mem_singleton_self _
  have h := (pae_cutoff_monotone (fun x => x) (fun _ => 0) sampleSD zeroPAE (8 : ℚ)
    (by norm_num : (20 : ℚ) ≤ 30)).1 sampleChainScore hmem20
  obtain ⟨s2, hs2mem, _, _, hle⟩ := h
  rw [calc_cc_sample (by norm_num) (by norm_num)] at hs2mem
  have hs2 : s2 = sampleChainScore := List.mem_singleton.mp hs2mem
  subst hs2
  exact ⟨hmem20, hle⟩

theorem validInteractions_pae_le {pae dist : Nat → Nat → α} {pc dc : α}
    {idx1 idx2 : List Nat} :
    ∀ x ∈ (validInteractions pae dist pc dc idx1 idx2).map (fun p => pae p.1 p.2), x ≤ pc := by
  intro x hx
  rcases List.mem_map.mp hx with ⟨p, hp, rfl⟩
  have hf := List.of_mem_filter hp
  simp only [Bool.and_eq_true, decide_eq_true_eq] at hf
  exact hf.1

theorem validInteractions_dist_le {pae dist : Nat → Nat → α} {pc dc : α}
    {idx1 idx2 : List Nat} :
    ∀ x ∈ (validInteractions pae dist pc dc idx1 idx2).map (fun p => dist p.1 p.2), x ≤ dc := by
  intro x hx
  rcases List.mem_map.mp hx with ⟨p, hp, rfl⟩
  have hf := List.of_mem_filter hp
  simp only [Bool.and_eq_true, decide_eq_true_eq] at hf
  exact hf.2

theorem residuePartners_pae_le {pae dist : Nat → Nat → α} {pc dc : α} {n i : Nat} :
    ∀ x ∈ (residuePartners pae dist pc dc n i).map (fun q => pae q.1 q.2), x ≤ pc := by
  intro x hx
  rcases List.mem_map.mp hx with ⟨q, hq, rfl⟩
  rcases List.mem_map.mp hq with ⟨j, hj, rfl⟩
  have hf := List.of_mem_filter hj
  simp only [Bool.and_eq_true, decide_eq_true_eq] at hf
  exact hf.1.2

theorem residuePartners_dist_le {pae dist : Nat → Nat → α} {pc dc : α} {n i : Nat} :
    ∀ x ∈ (residuePartners pae dist pc dc n i).map (fun q => dist q.1 q.2), x ≤ dc := by
  intro x hx
  rcases List.mem_map.mp hx with ⟨q, hq, rfl⟩
  rcases List.mem_map.mp hq with ⟨j, hj, rfl⟩
  have hf := List.of_mem_filter hj
  simp only [Bool.and_eq_true, decide_eq_true_eq] at hf
  exact hf.2

theorem validInteractions_length_le {pae dist : Nat → Nat → α} {pc dc : α}
    (idx1 idx2 : List Nat) :
    (validInteractions pae dist pc dc idx1 idx2).length ≤ idx1.length * idx2.length :=
  le_trans (List.length_filter_le _ _) (le_of_eq (List.length_product _ _))

/-- **C10**: For every emitted `ChainChainScore` and `ResidueScore` (under the
spec's §4.1 precondition that the cutoffs are positive), `avg_pae ≤ pae_cutoff`
and `avg_distance ≤ distance_cutoff`, hence `ipsae_score ≥ 0` in exact
arithmetic; if additionally every PAE entry is nonnegative then
`ipsae_score ≤ 1`; and `0 < lis_score ≤ 1` for every chain pair. -/
theorem score_bounds (psqrt pexp : α → α) (sd : StructureData α)
    (pae : Nat → Nat → α) (pc dc : α) (hpc : 0 < pc) :
    (∀ s ∈ calculate_chain_chain_scores psqrt pexp sd pae pc dc,
      s.avg_pae ≤ pc ∧ s.avg_distance ≤ dc ∧ 0 ≤ s.ipsae_score ∧
      ((∀ i j, 0 ≤ pae i j) → s.ipsae_score ≤ 1) ∧
      0 < s.lis_score ∧ s.lis_score ≤ 1) ∧
    (∀ t ∈ calculate_residue_scores psqrt sd pae pc dc,
      t.avg_pae ≤ pc ∧ t.avg_distance ≤ dc ∧ 0 ≤ t.ipsae_score ∧
      ((∀ i j, 0 ≤ pae i j) → t.ipsae_score ≤ 1)) := by
  constructor
  · intro s hs
    simp only [calculate_chain_chain_scores, List.mem_filterMap] at hs
    obtain ⟨c, _, hc⟩ := hs
    obtain ⟨h1, h2, h3, h4, h5, h6, h7, h8, h9, h10, h11, h12⟩ := chainPairScore_some_elim hc
    have hpvne : s.pae_values ≠ [] := by
      rw [h5]
      intro hnil
      exact h4 (List.map_eq_nil_iff.mp hnil)
    have hdvne : s.distances ≠ [] := by
      rw [h6]
      intro hnil
      exact h4 (List.map_eq_nil_iff.mp hnil)
    have havg : s.avg_pae ≤ pc := by
      rw [h8]
      refine mean_le_of_forall_le hpvne ?_
      rw [h5, h3]
      exact validInteractions_pae_le
    have havgd : s.avg_distance ≤ dc := by
      rw [h9]
      refine mean_le_of_forall_le hdvne ?_
      rw [h6, h3]
      exact validInteractions_dist_le
    have hdiv1 : s.avg_pae / pc ≤ 1 := (div_le_one hpc).mpr havg
    have hips0 : 0 ≤ s.ipsae_score := by
      rw [h10]
      linarith
    have hips1 : (∀ i j, 0 ≤ pae i j) → s.ipsae_score ≤ 1 := by
      intro hpae0
      have havg0 : 0 ≤ s.avg_pae := by
        rw [h8]
        refine mean_nonneg ?_
        intro x hx
        rw [h5] at hx
        rcases List.mem_map.mp hx with ⟨p, _, rfl⟩
        exact hpae0 p.1 p.2
      have : 0 ≤ s.avg_pae / pc := div_nonneg havg0 hpc.le
      rw [h10]
      linarith
    have hn1 : 1 ≤ s.num_interactions := by
      rw [h7]
      exact List.length_pos.mpr h4
    have hnm : s.num_interactions ≤
        (chainIndices sd.residues c.1).length * (chainIndices sd.residues c.2).length := by
      rw [h7, h3]
      exact validInteractions_length_le _ _
    have hm1 : 1 ≤ (chainIndices sd.residues c.1).length * (chainIndices sd.residues c.2).length :=
      le_trans hn1 hnm
    have hmpos : (0 : α) <
        (((chainIndices sd.residues c.1).length * (chainIndices sd.residues c.2).length : ℕ) : α) := by
      exact_mod_cast lt_of_lt_of_le Nat.zero_lt_one hm1
    have hlis0 : 0 < s.lis_score := by
      rw [h12]
      refine div_pos ?_ hmpos
      exact_mod_cast lt_of_lt_of_le Nat.zero_lt_one hn1
    have hlis1 : s.lis_score ≤ 1 := by
      rw [h12, div_le_one hmpos]
      exact_mod_cast hnm
    exact ⟨havg, havgd, hips0, hips1, hlis0, hlis1⟩
  · intro t ht
    simp only [calculate_residue_scores, List.mem_filterMap] at ht
    obtain ⟨p, _, hp⟩ := ht
    obtain ⟨e1, e2, e3, h4, h5, h6, h7, h8, h9, h10, h11⟩ := residueScoreAt_some_elim hp
    have hpvne : t.pae_values ≠ [] := by
      rw [h6]
      intro hnil
      exact h5 (List.map_eq_nil_iff.mp hnil)
    have hdvne : t.distances ≠ [] := by
      rw [h7]
      intro hnil
      exact h5 (List.map_eq_nil_iff.mp hnil)
    have havg : t.avg_pae ≤ pc := by
      rw [h9]
      refine mean_le_of_forall_le hpvne ?_
      rw [h6, h4]
      exact residuePartners_pae_le
    have havgd : t.avg_distance ≤ dc := by
      rw [h10]
      refine mean_le_of_forall_le hdvne ?_
      rw [h7, h4]
      exact residuePartners_dist_le
    have hdiv1 : t.avg_pae / pc ≤ 1 := (div_le_one hpc).mpr havg
    have hips0 : 0 ≤ t.ipsae_score := by
      rw [h11]
      linarith
    refine ⟨havg, havgd, hips0, ?_⟩
    intro hpae0
    have havg0 : 0 ≤ t.avg_pae := by
      rw [h9]
      refine mean_nonneg ?_
      intro x hx
      rw [h6] at hx
      rcases List.mem_map.mp hx with ⟨q, _, rfl⟩
      exact hpae0 q.1 q.2
    have : 0 ≤ t.avg_pae / pc := div_nonneg havg0 hpc.le
    rw [h11]
    linarith

/-- Witness for C10 at the sample input with positive cutoffs and an
all-nonnegative PAE matrix. -/
theorem score_bounds_witness :
    sampleChainScore.avg_pae ≤ 30 ∧ sampleChainScore.avg_distance ≤ 8 ∧
    0 ≤ sampleChainScore.ipsae_score ∧ sampleChainScore.ipsae_score ≤ 1 ∧
    0 < sampleChainScore.lis_score ∧ sampleChainScore.lis_score ≤ 1 ∧
    0 ≤ sampleResidueScoreA.ipsae_score := by
  have h := score_bounds (fun x => x) (fun _ => 0) sampleSD zeroPAE (30 : ℚ) 8 (by norm_num)
  have h1 := h.1 sampleChainScore
    (by rw [calc_cc_sample (by norm_num) (by norm_num)]; exact List.mem_singleton_self _)
  have h2 := h.2 sampleResidueScoreA
    (by rw [calc_res_sample (by norm_num) (by norm_num)]; exact List.mem_cons_self _ _)
  exact ⟨h1.1, h1.2.1, h1.2.2.1, h1.2.2.2.1 (fun i j => le_refl 0), h1.2.2.2.2.1,
    h1.2.2.2.2.2, h2.2.2.1⟩

omit [LinearOrderedField α] in
theorem mget_isSome {m : List (List α)} {i j : Nat} (hi : i < m.length)
    (hj : ∀ row ∈ m, j < row.length) : (mget m i j).isSome = true := by
  have hrow : m[i] ∈ m := List.getElem_mem hi
  rw [mget, List.getElem?_eq_getElem hi]
  show (m[i][j]?).isSome = true
  rw [List.getElem?_eq_getElem (hj _ hrow)]
  rfl

theorem cdistM_length (psqrt : α → α) (coords : List (α × α × α)) :
    (cdistM psqrt coords).length = coords.length := by
  rw [cdistM, List.length_map]

theorem cdistM_row_length (psqrt : α → α) (coords : List (α × α × α)) :
    ∀ row ∈ cdistM psqrt coords, row.length = coords.length := by
  intro row hrow
  rcases List.mem_map.mp hrow with ⟨a, _, rfl⟩
  rw [List.length_map]

theorem collectValid_isOk {pae dist : List (List α)} {pc dc : α} :
    ∀ {pairs : List (Nat × Nat)},
      (∀ p ∈ pairs, (mget pae p.1 p.2).isSome = true ∧ (mget dist p.1 p.2).isSome = true) →
      ∃ r, collectValid pae dist pc dc pairs = .ok r
  | [], _ => ⟨([], [], []), rfl⟩
  | p :: rest, h => by
    obtain ⟨pv, hpv⟩ := Option.isSome_iff_exists.mp (h p (List.mem_cons_self _ _)).1
    obtain ⟨dv, hdv⟩ := Option.isSome_iff_exists.mp (h p (List.mem_cons_self _ _)).2
    obtain ⟨⟨vs, ps, ds⟩, hr⟩ :=
      collectValid_isOk (fun q hq => h q (List.mem_cons_of_mem _ hq))
    simp only [collectValid]
    rw [hpv, hdv, hr]
    change ∃ r, (if pv ≤ pc ∧ dv ≤ dc then
        (Except.ok (p :: vs, pv :: ps, dv :: ds) : Except String _)
      else Except.ok (vs, ps, ds)) = .ok r
    split
    · exact ⟨_, rfl⟩
    · exact ⟨_, rfl⟩

theorem exceptFilterMap_isOk {β γ : Type} {f : β → Except String (Option γ)} :
    ∀ {l : List β}, (∀ b ∈ l, ∃ o, f b = .ok o) → ∃ res, exceptFilterMap f l = .ok res
  | [], _ => ⟨[], rfl⟩
  | b :: rest, h => by
    obtain ⟨o, ho⟩ := h b (List.mem_cons_self _ _)
    obtain ⟨res, hres⟩ := exceptFilterMap_isOk (fun x hx => h x (List.mem_cons_of_mem _ hx))
    cases o with
    | none => exact ⟨res, by simp only [exceptFilterMap]; rw [ho, hres]⟩
    | some g => exact ⟨g :: res, by simp only [exceptFilterMap]; rw [ho, hres]⟩

theorem chainPairScoreChecked_isOk {pexp : α → α} {residues : List (String × Int × String)}
    {pae dist : List (List α)} {pc dc : α} {c : String × String}
    (h : ∃ r, collectValid pae dist pc dc
      ((chainIndices residues c.1).product (chainIndices residues c.2)) = .ok r) :
    ∃ o, chainPairScoreChecked pexp residues pae dist pc dc c = .ok o := by
  obtain ⟨⟨valid, pvs, dvs⟩, hr⟩ := h
  simp only [chainPairScoreChecked]
  rw [hr]
  change ∃ o, (if valid = [] then (Except.ok none : Except String _) else Except.ok _) = .ok o
  split
  · exact ⟨_, rfl⟩
  · exact ⟨_, rfl⟩

theorem residueScoreCheckedAt_isOk {pae dist : List (List α)} {pc dc : α} {n : Nat}
    {p : Nat × String × Int × String}
    (h : ∃ r, collectValid pae dist pc dc
      (((List.range n).filter fun j => !(p.1 == j)).map fun j => (p.1, j)) = .ok r) :
    ∃ o, residueScoreCheckedAt pae dist pc dc n p = .ok o := by
  obtain ⟨⟨valid, pvs, dvs⟩, hr⟩ := h
  simp only [residueScoreCheckedAt]
  rw [hr]
  change ∃ o, (if valid = [] then (Except.ok none : Except String _) else Except.ok _) = .ok o
  split
  · exact ⟨_, rfl⟩
  · exact ⟨_, rfl⟩

/-- **C5 (amended)**: The scorer performs no explicit shape validation; with
matching lengths (coordinates, PAE matrix rows and columns all equal to the
residue count) the checked run never fails.  (The original claim that any
length disagreement aborts the run fails on an oversized PAE matrix.) -/
theorem matching_dims_never_fails (psqrt pexp : α → α) (sd : StructureData α)
    (pae : List (List α)) (pc dc : α)
    (hcoord : sd.coordinates.length = sd.residues.length)
    (hpae : pae.length = sd.residues.length)
    (hrows : ∀ row ∈ pae, row.length = sd.residues.length) :
    ∃ res, calculate_checked psqrt pexp sd pae pc dc = .ok res := by
  have hacc : ∀ c : String × String,
      ∃ o, chainPairScoreChecked pexp sd.residues pae (cdistM psqrt sd.coordinates) pc dc c
        = .ok o := by
    intro c
    refine chainPairScoreChecked_isOk (collectValid_isOk ?_)
    intro p hp
    have hmem := List.mem_product.mp hp
    have h1 : p.1 < sd.residues.length := mem_chainIndices_lt hmem.1
    have h2 : p.2 < sd.residues.length := mem_chainIndices_lt hmem.2
    constructor
    · exact mget_isSome (by rw [hpae]; exact h1)
        (fun row hrow => by rw [hrows row hrow]; exact h2)
    · exact mget_isSome (by rw [cdistM_length, hcoord]; exact h1)
        (fun row hrow => by rw [cdistM_row_length psqrt sd.coordinates row hrow, hcoord]; exact h2)
  obtain ⟨cc, hcc⟩ := exceptFilterMap_isOk (fun c _ => hacc c)
  have haccr : ∀ p ∈ sd.residues.enum,
      ∃ o, residueScoreCheckedAt pae (cdistM psqrt sd.coordinates) pc dc
        sd.coordinates.length p = .ok o := by
    intro p hpmem
    refine residueScoreCheckedAt_isOk (collectValid_isOk ?_)
    intro q hq
    rcases List.mem_map.mp hq with ⟨j, hj, rfl⟩
    have hj' : j < sd.coordinates.length := List.mem_range.mp (List.mem_of_mem_filter hj)
    have hi : p.1 < sd.residues.length := fst_lt_of_mem_enum hpmem
    constructor
    · exact mget_isSome (by rw [hpae]; exact hi)
        (fun row hrow => by rw [hrows row hrow, ← hcoord]; exact hj')
    · exact mget_isSome (by rw [cdistM_length, hcoord]; exact hi)
        (fun row hrow => by rw [cdistM_row_length psqrt sd.coordinates row hrow]; exact hj')
  obtain ⟨rs, hrs⟩ := exceptFilterMap_isOk haccr
  refine ⟨(cc, rs), ?_⟩
  simp only [calculate_checked, calculate_chain_chain_scores_checked,
    calculate_residue_scores_checked]
  rw [hcc, hrs]

/-- Witness for the amended C5: a well-formed 2-residue input with a 2x2 PAE
matrix runs to completion. -/
theorem matching_dims_never_fails_witness :
    sampleSD.coordinates.length = sampleSD.residues.length ∧
    ([[0, 0], [0, 0]] : List (List ℚ)).length = sampleSD.residues.length ∧
    (∀ row ∈ ([[0, 0], [0, 0]] : List (List ℚ)), row.length = sampleSD.residues.length) ∧
    ∃ res, calculate_checked (fun x => x) (fun _ => 0) sampleSD
      ([[0, 0], [0, 0]] : List (List ℚ)) 30 8 = .ok res := by
  refine ⟨by rfl, by rfl, ?_, ?_⟩
  · intro row hrow
    rcases List.mem_cons.mp hrow with rfl | hrow2
    · rfl
    · rcases List.mem_cons.mp hrow2 with rfl | h
      · rfl
      · cases h
  · refine matching_dims_never_fails (fun x => x) (fun _ => 0) sampleSD _ 30 8 rfl rfl ?_
    intro row hrow
    rcases List.mem_cons.mp hrow with rfl | hrow2
    · rfl
    · rcases List.mem_cons.mp hrow2 with rfl | h
      · rfl
      · cases h

/-- **C5 (counterexample)**: a PAE matrix larger than the residue list (lengths
disagree) is accepted silently — the run returns a result instead of
signalling an input-shape error. -/
theorem shape_mismatch_accepted_counterexample :
    (([[0, 0], [0, 0]] : List (List ℚ)).length ≠
      ([("A", (1 : Int), "GLY")] : List (String × Int × String)).length) ∧
    calculate_checked (fun x => x) (fun _ => 0) mismatchSD
      ([[0, 0], [0, 0]] : List (List ℚ)) 30 8 = .ok ([], []) := by
  exact ⟨by decide, rfl⟩

/-- **C8 (counterexample)**: a parsed structure with one chain holding two
residues (each with one CA atom) yields one `chains` entry but two `residues`
entries, so `len(chains) == len(residues) == len(coordinates)` fails. -/
theorem parser_lengths_counterexample :
    (parse_pdb sampleBio).chains.length = 1 ∧
    (parse_pdb sampleBio).residues.length = 2 ∧
    (parse_pdb sampleBio).coordinates.length = 2 ∧
    (parse_cif sampleBio).chains.length = 1 ∧
    ¬((parse_pdb sampleBio).chains.length = (parse_pdb sampleBio).residues.length) := by
  decide

omit [LinearOrderedField α] in
/-- **C8 (amended)**: `parse_cif` and `parse_pdb` run the same extraction loop;
it emits one `chains` entry per chain of each model (not one per residue), one
`residues` entry per residue, and one coordinate per atom named CA — so
residue and coordinate counts agree exactly when every residue has exactly one
CA atom, while the chain-label list length is the number of chains. -/
theorem parser_length_characterization (s : BioStructure α) :
    parse_cif s = parse_structure s ∧
    parse_pdb s = parse_structure s ∧
    (parse_structure s).chains.length = (s.models.map fun m => m.chains.length).sum ∧
    (parse_structure s).residues.length =
      (s.models.map fun m => (m.chains.map fun c => c.residues.length).sum).sum ∧
    (parse_structure s).coordinates.length =
      (s.models.map fun m => (m.chains.map fun c =>
        (c.residues.map fun r =>
          (r.atoms.filter fun a => a.id == "CA").length).sum).sum).sum ∧
    ((∀ m ∈ s.models, ∀ c ∈ m.chains, ∀ r ∈ c.residues,
        (r.atoms.filter fun a => a.id == "CA").length = 1) →
      (parse_structure s).coordinates.length = (parse_structure s).residues.length) := by
  have hch : (parse_structure s).chains.length
      = (s.models.map fun m => m.chains.length).sum := by
    simp [parse_structure, List.length_flatMap, Function.comp_def]
  have hres : (parse_structure s).residues.length
      = (s.models.map fun m => (m.chains.map fun c => c.residues.length).sum).sum := by
    simp [parse_structure, List.length_flatMap, Function.comp_def]
  have hcoord : (parse_structure s).coordinates.length
      = (s.models.map fun m => (m.chains.map fun c =>
          (c.residues.map fun r =>
            (r.atoms.filter fun a => a.id == "CA").length).sum).sum).sum := by
    simp [parse_structure, List.length_flatMap, Function.comp_def]
  refine ⟨rfl, rfl, hch, hres, hcoord, ?_⟩
  intro hCA
  rw [hcoord, hres]
  apply congrArg List.sum
  apply List.map_congr_left
  intro m hm
  apply congrArg List.sum
  apply List.map_congr_left
  intro c hc
  rw [List.map_congr_left (fun r hr => hCA m hm c hc r hr)]
  simp

/-- Witness for the amended C8 at a concrete parsed structure whose residues
each hold exactly one CA atom. -/
theorem parser_length_characterization_witness :
    (parse_structure sampleBio).chains.length
      = (sampleBio.models.map fun m => m.chains.length).sum ∧
    (parse_structure sampleBio).coordinates.length
      = (parse_structure sampleBio).residues.length := by
  have h := parser_length_characterization sampleBio
  exact ⟨h.2.2.1, h.2.2.2.2.2 (by decide)⟩

mutual

theorem noArrays_tolist : ∀ a : NDArr, (NDArr.tolist a).noArrays = true
  | .scalar q => rfl
  | .node l => by
    rw [NDArr.tolist]
    show noArraysList (tolistList l) = true
    exact noArraysList_tolistList l

theorem noArraysList_tolistList : ∀ l : List NDArr, noArraysList (tolistList l) = true
  | [] => rfl
  | a :: rest => by
    show ((NDArr.tolist a).noArrays && noArraysList (tolistList rest)) = true
    rw [noArrays_tolist a, noArraysList_tolistList rest]
    rfl

end

mutual

theorem noArrays_convert : ∀ v : PyVal, (convert_numpy v).noArrays = true
  | .ndarray a => noArrays_tolist a
  | .list l => by
    rw [convert_numpy]
    show noArraysList (convertList l) = true
    exact noArraysList_convertList l
  | .dict d => by
    rw [convert_numpy]
    show noArraysDict (convertDict d) = true
    exact noArraysDict_convertDict d
  | .str s => rfl
  | .int n => rfl
  | .float q => rfl
  | .none => rfl

theorem noArraysList_convertList : ∀ l : List PyVal, noArraysList (convertList l) = true
  | [] => rfl
  | v :: rest => by
    show ((convert_numpy v).noArrays && noArraysList (convertList rest)) = true
    rw [noArrays_convert v, noArraysList_convertList rest]
    rfl

theorem noArraysDict_convertDict :
    ∀ d : List (String × PyVal), noArraysDict (convertDict d) = true
  | [] => rfl
  | kv :: rest => by
    show ((convert_numpy kv.2).noArrays && noArraysDict (convertDict rest)) = true
    rw [noArrays_convert kv.2, noArraysDict_convertDict rest]
    rfl

end

theorem noArraysList_map {β : Type} (f : β → PyVal) (h : ∀ x, (f x).noArrays = true) :
    ∀ l : List β, noArraysList (l.map f) = true
  | [] => rfl
  | x :: rest => by
    rw [List.map_cons]
    show ((f x).noArrays && noArraysList (rest.map f)) = true
    rw [h x, noArraysList_map f h rest]
    rfl

theorem noArrays_intPair (p : Nat × Nat) :
    (PyVal.list [.int p.1, .int p.2]).noArrays = true := rfl

theorem noArrays_resTriple (t : String × Int × String) :
    (PyVal.list [.str t.1, .int t.2.1, .str t.2.2]).noArrays = true := rfl

theorem noArrays_chainScoreToPy (s : ChainChainScore ℚ) :
    (chainScoreToPy s).noArrays = true := by
  have hv : noArraysList (s.valid_interactions.map fun p =>
      PyVal.list [.int p.1, .int p.2]) = true :=
    noArraysList_map (fun p => PyVal.list [.int p.1, .int p.2]) noArrays_intPair
      s.valid_interactions
  show noArraysDict _ = true
  simp only [noArraysDict, Bool.and_eq_true]
  exact ⟨rfl, rfl, rfl, rfl, rfl, rfl, rfl, rfl, hv, noArrays_convert _,
    noArrays_convert _, trivial⟩

theorem noArrays_residueScoreToPy (s : ResidueScore ℚ) :
    (residueScoreToPy s).noArrays = true := by
  have hv : noArraysList (s.valid_interactions.map fun p =>
      PyVal.list [.int p.1, .int p.2]) = true :=
    noArraysList_map (fun p => PyVal.list [.int p.1, .int p.2]) noArrays_intPair
      s.valid_interactions
  show noArraysDict _ = true
  simp only [noArraysDict, Bool.and_eq_true]
  exact ⟨rfl, rfl, rfl, rfl, rfl, rfl, rfl, hv, noArrays_convert _,
    noArrays_convert _, trivial⟩

theorem beq_key_ccs_rs : (("chain_chain_scores" : String) == "residue_scores") = false := by
  decide

theorem beq_key_ccs_sd : (("chain_chain_scores" : String) == "structure_data") = false := by
  decide

theorem beq_key_rs_sd : (("residue_scores" : String) == "structure_data") = false := by
  decide

/-- **C9**: Serializing an `IPSAEResults` produces a mapping with exactly the
keys `chain_chain_scores`, `residue_scores` and `structure_data`; the score
records carry exactly the listed fields in order; and the result contains no
array-library value anywhere (every numpy array has been flattened to plain
nested sequences). -/
theorem save_interchange_form (r : IPSAEResults) :
    dictKeys (save_data r) = ["chain_chain_scores", "residue_scores", "structure_data"] ∧
    (∃ l, dictGet (save_data r) "chain_chain_scores" = some (.list l) ∧
      l.length = r.chain_chain_scores.length ∧
      ∀ v ∈ l, dictKeys v = ["chain1", "chain2", "ipsae_score", "pdockq_score",
        "lis_score", "avg_pae", "avg_distance", "num_interactions",
        "valid_interactions", "pae_values", "distances"]) ∧
    (∃ l, dictGet (save_data r) "residue_scores" = some (.list l) ∧
      l.length = r.residue_scores.length ∧
      ∀ v ∈ l, dictKeys v = ["chain", "residue_number", "residue_name", "ipsae_score",
        "avg_pae", "avg_distance", "num_interactions", "valid_interactions",
        "pae_values", "distances"]) ∧
    (∃ d, dictGet (save_data r) "structure_data" = some (.dict d) ∧
      d.map Prod.fst = ["chains", "residues", "coordinates", "pae_matrix"]) ∧
    (save_data r).noArrays = true := by
  refine ⟨rfl, ?_, ?_, ?_, ?_⟩
  · refine ⟨r.chain_chain_scores.map chainScoreToPy, ?_, List.length_map _ _, ?_⟩
    · simp [dictGet, save_data, List.find?]
    · intro v hv
      rcases List.mem_map.mp hv with ⟨s, _, rfl⟩
      rfl
  · refine ⟨r.residue_scores.map residueScoreToPy, ?_, List.length_map _ _, ?_⟩
    · simp [dictGet, save_data, List.find?, beq_key_ccs_rs]
    · intro v hv
      rcases List.mem_map.mp hv with ⟨s, _, rfl⟩
      rfl
  · refine ⟨[("chains", .list (r.structure_data.chains.map PyVal.str)),
      ("residues", .list (r.structure_data.residues.map fun t =>
        PyVal.list [.str t.1, .int t.2.1, .str t.2.2])),
      ("coordinates", convert_numpy (.list (r.structure_data.coordinates.map PyVal.ndarray))),
      ("pae_matrix", match r.structure_data.pae_matrix with
        | some m => convert_numpy (.ndarray m)
        | Option.none => .none)], ?_, rfl⟩
    simp [dictGet, save_data, List.find?, beq_key_ccs_sd, beq_key_rs_sd]
  · have h1 : noArraysList (r.chain_chain_scores.map chainScoreToPy) = true :=
      noArraysList_map _ noArrays_chainScoreToPy _
    have h2 : noArraysList (r.residue_scores.map residueScoreToPy) = true :=
      noArraysList_map _ noArrays_residueScoreToPy _
    have h3 : noArraysList (r.structure_data.chains.map PyVal.str) = true :=
      noArraysList_map PyVal.str (fun x => rfl) _
    have h4 : noArraysList (r.structure_data.residues.map fun t =>
        PyVal.list [.str t.1, .int t.2.1, .str t.2.2]) = true :=
      noArraysList_map (fun t => PyVal.list [.str t.1, .int t.2.1, .str t.2.2])
        noArrays_resTriple _
    have h6 : (match r.structure_data.pae_matrix with
        | some m => convert_numpy (.ndarray m)
        | Option.none => PyVal.none).noArrays = true := by
      cases r.structure_data.pae_matrix with
      | none => rfl
      | some m => exact noArrays_convert _
    show noArraysDict _ = true
    simp only [noArraysDict, Bool.and_eq_true]
    refine ⟨?_, ?_, ?_, trivial⟩
    · exact h1
    · exact h2
    · show noArraysDict _ = true
      simp only [noArraysDict, Bool.and_eq_true]
      exact ⟨h3, h4, noArrays_convert _, h6, trivial⟩

/-- Witness for C9 at a concrete results value (with a numpy coordinate list
and an attached numpy PAE matrix). -/
theorem save_interchange_form_witness :
    dictKeys (save_data sampleResults)
      = ["chain_chain_scores", "residue_scores", "structure_data"] ∧
    (save_data sampleResults).noArrays = true := by
  exact ⟨(save_interchange_form sampleResults).1,
    (save_interchange_form sampleResults).2.2.2.2⟩

end Ipsae


